import Mathlib

/-!
Verification of the habit-gamification service (`app/models.py`,
`app/repository.py`, `app/auth.py`, `app/routes.py`) against its
natural-language specification.

The Python code is shallowly embedded: dataclasses become structures,
mutating methods become functions returning the updated value, Python
`int` becomes `ℤ` (unbounded), UUIDs become `ℕ` tokens, timestamps and
dates become `ℕ` ticks supplied by the caller (the ambient clock), and
the in-memory dict-backed repositories become association lists with
dict upsert/lookup semantics.  `Progress.percentage` performs binary64
floating-point arithmetic (`int((completed / total) * 100)`), embedded
exactly via an integer model of round-to-nearest-even (`roundRat`).
-/

namespace HabitApp

/-- Fuel-based floor of the binary logarithm: `log2fuel fuel n = ⌊log₂ n⌋`
whenever `1 ≤ n ≤ fuel`. -/
def log2fuel : ℕ → ℕ → ℕ
  | 0, _ => 0
  | fuel + 1, n => if n ≤ 1 then 0 else log2fuel fuel (n / 2) + 1

/-- `⌊log₂ n⌋` for `n ≥ 1` (0 at 0). -/
def natLog2 (n : ℕ) : ℕ := log2fuel n n

/-- `⌊log₂ (n / d)⌋` for positive naturals `n`, `d`, by integer arithmetic. -/
def ratLog2 (n d : ℕ) : ℤ :=
  let e0 : ℤ := (natLog2 n : ℤ) - (natLog2 d : ℤ)
  if 0 ≤ e0 then
    if d * 2 ^ e0.toNat ≤ n then e0 else e0 - 1
  else
    if d ≤ n * 2 ^ (-e0).toNat then e0 else e0 - 1

/-- Rounds the positive rational `n / d` to 53 significant bits with ties to
even — the IEEE-754 binary64 rounding of `n / d`, here with unbounded
exponent (every value arising in this development lies far inside the
normal, non-overflowing range of binary64, where the two agree).
Returns `(mantissa, exponent)`; the value denoted is `mantissa · 2^exponent`. -/
def roundRat (n d : ℕ) : ℕ × ℤ :=
  if n = 0 then (0, 0) else
  let e : ℤ := ratLog2 n d
  let s : ℤ := e - 52
  let num : ℕ := if 0 ≤ s then n else n * 2 ^ (-s).toNat
  let den : ℕ := if 0 ≤ s then d * 2 ^ s.toNat else d
  let m := num / den
  let r := num % den
  let m2 := if den < 2 * r then m + 1
    else if 2 * r < den then m
    else if m % 2 = 0 then m else m + 1
  (m2, s)

/-- The binary64 pipeline of Python's `int((n / d) * 100)` for naturals
`n`, `d > 0`: correctly rounded true division `n / d`, correctly rounded
multiplication by the exactly representable 100, then truncation toward
zero by `int()`. -/
def pyPct (n d : ℕ) : ℕ :=
  let q := roundRat n d
  let q2 := if 0 ≤ q.2 then roundRat (q.1 * 100 * 2 ^ q.2.toNat) 1
    else roundRat (q.1 * 100) (2 ^ (-q.2).toNat)
  if 0 ≤ q2.2 then q2.1 * 2 ^ q2.2.toNat else q2.1 / 2 ^ (-q2.2).toNat

/-- Embeds `Progress` (`app/models.py`): two `int` counters. -/
structure Progress where
  completed_entries : ℤ
  total_entries : ℤ
deriving DecidableEq, Repr

/-- Embeds the derived property `Progress.percentage`:
`int((completed_entries / total_entries) * 100)` in binary64 arithmetic when
`total_entries != 0`, and `0` otherwise.  Python's true division, the
multiplication and `int()` truncation are all symmetric under negation, so
the sign is factored out of the positive-magnitude pipeline `pyPct`. -/
def Progress.percentage (p : Progress) : ℤ :=
  if p.total_entries = 0 then 0
  else p.completed_entries.sign * p.total_entries.sign *
    pyPct p.completed_entries.natAbs p.total_entries.natAbs

/-- The percentage as the specification words it: `floor(completed_entries /
total_entries * 100)` in exact rational arithmetic when `total_entries > 0`,
else `0`.  Stated from the spec, to be compared with `Progress.percentage`
embedded from the source. -/
def exactPercentage (p : Progress) : ℤ :=
  if p.total_entries = 0 then 0
  else ⌊(p.completed_entries : ℚ) / (p.total_entries : ℚ) * 100⌋

/-- Embeds `Progress.add_completed_entry`: increments both counters. -/
def Progress.add_completed_entry (p : Progress) : Progress :=
  { completed_entries := p.completed_entries + 1
    total_entries := p.total_entries + 1 }

/-- Embeds `Progress.add_missed_entry`: increments only the total. -/
def Progress.add_missed_entry (p : Progress) : Progress :=
  { p with total_entries := p.total_entries + 1 }

/-- Embeds `Streak` (`app/models.py`). -/
structure Streak where
  count : ℤ
deriving DecidableEq, Repr

/-- Embeds `Streak.increment`. -/
def Streak.increment (s : Streak) : Streak := { count := s.count + 1 }

/-- Embeds `Streak.reset`. -/
def Streak.reset (_ : Streak) : Streak := { count := 0 }

/-- Embeds `HabitEntry`: entry id (UUID token), date (tick), completed flag. -/
structure HabitEntry where
  entry_id : ℕ
  date : ℕ
  completed : Bool
deriving DecidableEq, Repr

/-- Embeds `Habit` (`app/models.py`), the aggregate root. -/
structure Habit where
  habit_id : ℕ
  user_id : ℕ
  title : String
  description : String
  progress : Progress
  streak : Streak
  entries : List HabitEntry
  created_at : ℕ
  updated_at : ℕ
deriving DecidableEq, Repr

/-- Embeds the factory `Habit.create`: fresh id, zeroed `Progress()` and
`Streak()`, empty entry list, both timestamps set to `now`. -/
def Habit.create (hid uid : ℕ) (title description : String) (now : ℕ) : Habit :=
  { habit_id := hid
    user_id := uid
    title := title
    description := description
    progress := { completed_entries := 0, total_entries := 0 }
    streak := { count := 0 }
    entries := []
    created_at := now
    updated_at := now }

/-- Embeds `Habit.complete`: append `HabitEntry(completed=True)`, record a
completed entry, increment the streak, bump `updated_at`. The fresh entry id
and today's date are ambient inputs (`uuid4()` / `date.today()`). -/
def Habit.complete (h : Habit) (eid today now : ℕ) : Habit :=
  { h with
    entries := h.entries ++ [{ entry_id := eid, date := today, completed := true }]
    progress := h.progress.add_completed_entry
    streak := h.streak.increment
    updated_at := now }

/-- Embeds `Habit.miss`: append `HabitEntry(completed=False)`, record a
missed entry, reset the streak, bump `updated_at`. -/
def Habit.miss (h : Habit) (eid today now : ℕ) : Habit :=
  { h with
    entries := h.entries ++ [{ entry_id := eid, date := today, completed := false }]
    progress := h.progress.add_missed_entry
    streak := h.streak.reset
    updated_at := now }

/-- One call in a sequence of domain transitions, with the ambient inputs
(`uuid4()`, `date.today()`, `datetime.now()`) the call observes. -/
inductive Op where
  | complete (eid today now : ℕ)
  | miss (eid today now : ℕ)
deriving DecidableEq, Repr

/-- Applies one call to a habit. -/
def applyOp (h : Habit) : Op → Habit
  | .complete eid today now => h.complete eid today now
  | .miss eid today now => h.miss eid today now

/-- Applies a finite sequence of `complete()` / `miss()` calls in order. -/
def applyOps (h : Habit) (ops : List Op) : Habit :=
  ops.foldl applyOp h

/-- Number of trailing `complete()` calls since the most recent `miss()`
(the whole count of `complete()` calls when no `miss()` occurs). -/
def trailingCompletes (ops : List Op) : ℕ :=
  (ops.reverse.takeWhile fun op => match op with
    | .complete _ _ _ => true
    | .miss _ _ _ => false).length

/-- Embeds `User` (`app/models.py`): id, login name, bcrypt digest,
creation time. -/
structure User where
  user_id : ℕ
  username : String
  hashed_password : String
  created_at : ℕ
deriving DecidableEq, Repr

/-- Embeds `User.verify_password`; bcrypt's `checkpw` is the opaque
verify-secret capability, supplied as a parameter. -/
def User.verify_password (checkpw : String → String → Bool) (u : User)
    (password : String) : Bool :=
  checkpw password u.hashed_password

/-- Python-dict upsert on an association list: replace the value in place
when the key is present, append otherwise. -/
def upsert {α : Type} (l : List (ℕ × α)) (k : ℕ) (v : α) : List (ℕ × α) :=
  if l.any fun p => p.1 == k then
    l.map fun p => if p.1 == k then (k, v) else p
  else l ++ [(k, v)]

/-- Embeds `HabitRepository` (`app/repository.py`): the dict from habit id
to habit. -/
structure HabitRepository where
  habits : List (ℕ × Habit)
deriving DecidableEq, Repr

/-- Embeds `HabitRepository.save`: `self._habits[habit.habit_id] = habit`
(the method also returns the habit, which no caller uses). -/
def HabitRepository.save (repo : HabitRepository) (habit : Habit) :
    HabitRepository :=
  { habits := upsert repo.habits habit.habit_id habit }

/-- Embeds `HabitRepository.get_by_id`: `self._habits.get(habit_id)`. -/
def HabitRepository.get_by_id (repo : HabitRepository) (habit_id : ℕ) :
    Option Habit :=
  (repo.habits.find? fun p => p.1 == habit_id).map fun p => p.2

/-- Embeds `UserRepository`: the dict from user id to user plus the
secondary index from login name to user id. -/
structure UserRepository where
  users : List (ℕ × User)
  username_index : List (String × ℕ)
deriving DecidableEq, Repr

/-- Embeds `UserRepository.get_by_id`: `self._users.get(user_id)`. -/
def UserRepository.get_by_id (repo : UserRepository) (user_id : ℕ) :
    Option User :=
  (repo.users.find? fun p => p.1 == user_id).map fun p => p.2

/-- Embeds `UserRepository.get_by_username`: look the name up in the
secondary index (exact, case-sensitive dict lookup on the string key), then
resolve the id in the primary dict.  Python's `if user_id:` is always true
for a `UUID` object (UUID defines no `__bool__`), so a present index entry
always proceeds to the primary lookup. -/
def UserRepository.get_by_username (repo : UserRepository) (username : String) :
    Option User :=
  match (repo.username_index.find? fun p => p.1 == username).map fun p => p.2 with
  | some user_id => repo.get_by_id user_id
  | none => none

/-- Embeds `authenticate_user` (`app/auth.py`): username lookup, then
secret verification; either failure returns the same `None`. -/
def authenticate_user (checkpw : String → String → Bool)
    (repo : UserRepository) (username password : String) : Option User :=
  match repo.get_by_username username with
  | none => none
  | some user =>
      if user.verify_password checkpw password then some user else none

/-- Embeds the two `HTTPException` outcomes of the habit routes:
404 Not Found and 403 Forbidden. -/
inductive ApiError where
  | notFound
  | forbidden
deriving DecidableEq, Repr

/-- Embeds `ProgressSchema` as populated by the route helpers. -/
structure ProgressSchema where
  completedEntries : ℤ
  totalEntries : ℤ
  percentage : ℤ
deriving DecidableEq, Repr

/-- Embeds `StreakSchema`. -/
structure StreakSchema where
  count : ℤ
deriving DecidableEq, Repr

/-- Embeds `HabitResponse`. -/
structure HabitResponse where
  habitId : ℕ
  userId : ℕ
  title : String
  description : String
  progress : ProgressSchema
  streak : StreakSchema
  created_at : ℕ
  updated_at : ℕ
deriving DecidableEq, Repr

/-- Embeds `HabitCompletionResponse`. -/
structure HabitCompletionResponse where
  habitId : ℕ
  progress : ProgressSchema
  streak : StreakSchema
deriving DecidableEq, Repr

/-- Embeds `ProgressResponse`. -/
structure ProgressResponse where
  progress : ProgressSchema
  streak : StreakSchema
deriving DecidableEq, Repr

/-- Embeds `habit_to_response` (`app/routes.py`). -/
def habit_to_response (habit : Habit) : HabitResponse :=
  { habitId := habit.habit_id
    userId := habit.user_id
    title := habit.title
    description := habit.description
    progress := { completedEntries := habit.progress.completed_entries
                  totalEntries := habit.progress.total_entries
                  percentage := habit.progress.percentage }
    streak := { count := habit.streak.count }
    created_at := habit.created_at
    updated_at := habit.updated_at }

/-- Embeds `habit_to_completion_response` (`app/routes.py`). -/
def habit_to_completion_response (habit : Habit) : HabitCompletionResponse :=
  { habitId := habit.habit_id
    progress := { completedEntries := habit.progress.completed_entries
                  totalEntries := habit.progress.total_entries
                  percentage := habit.progress.percentage }
    streak := { count := habit.streak.count } }

/-- Embeds `habit_to_progress_response` (`app/routes.py`). -/
def habit_to_progress_response (habit : Habit) : ProgressResponse :=
  { progress := { completedEntries := habit.progress.completed_entries
                  totalEntries := habit.progress.total_entries
                  percentage := habit.progress.percentage }
    streak := { count := habit.streak.count } }

/-- Embeds the `create_habit` route (`app/routes.py`), after
`get_current_user` has resolved the caller: build the habit from the
authenticated user's id (the request's `userId` is ignored), save it,
then return its view. -/
def create_habit (repo : HabitRepository) (current_user : User)
    (title description : String) (hid now : ℕ) :
    HabitRepository × HabitResponse :=
  let habit := Habit.create hid current_user.user_id title description now
  (repo.save habit, habit_to_response habit)

/-- Embeds the `get_habit` route: load, 404 when absent, 403 when the
caller is not the owner, else the full view. -/
def get_habit (repo : HabitRepository) (habitId : ℕ) (current_user : User) :
    Except ApiError HabitResponse :=
  match repo.get_by_id habitId with
  | none => .error .notFound
  | some habit =>
      if habit.user_id ≠ current_user.user_id then .error .forbidden
      else .ok (habit_to_response habit)

/-- Embeds the `complete_habit` route: load, 404 when absent, 403 when the
caller is not the owner, else run `Habit.complete`, save, and return the
completion view.  The repository after the call is returned alongside the
outcome, so that failure paths expose the (unchanged) store. -/
def complete_habit (repo : HabitRepository) (habitId : ℕ) (current_user : User)
    (eid today now : ℕ) :
    HabitRepository × Except ApiError HabitCompletionResponse :=
  match repo.get_by_id habitId with
  | none => (repo, .error .notFound)
  | some habit =>
      if habit.user_id ≠ current_user.user_id then (repo, .error .forbidden)
      else
        let habit := habit.complete eid today now
        (repo.save habit, .ok (habit_to_completion_response habit))

/-- Embeds the `miss_habit` route, analogously to `complete_habit`. -/
def miss_habit (repo : HabitRepository) (habitId : ℕ) (current_user : User)
    (eid today now : ℕ) :
    HabitRepository × Except ApiError HabitCompletionResponse :=
  match repo.get_by_id habitId with
  | none => (repo, .error .notFound)
  | some habit =>
      if habit.user_id ≠ current_user.user_id then (repo, .error .forbidden)
      else
        let habit := habit.miss eid today now
        (repo.save habit, .ok (habit_to_completion_response habit))

/-- Embeds the `get_habit_progress` route: load, 404 when absent, 403 when
the caller is not the owner, else the progress+streak view. -/
def get_habit_progress (repo : HabitRepository) (habitId : ℕ)
    (current_user : User) : Except ApiError ProgressResponse :=
  match repo.get_by_id habitId with
  | none => .error .notFound
  | some habit =>
      if habit.user_id ≠ current_user.user_id then .error .forbidden
      else .ok (habit_to_progress_response habit)

/-! ## Helper lemmas -/

/-- Unfolding a call sequence at its last call. -/
lemma applyOps_append_singleton (h : Habit) (ops : List Op) (op : Op) :
    applyOps h (ops ++ [op]) = applyOp (applyOps h ops) op := by
  simp [applyOps]

lemma trailingCompletes_append_complete (ops : List Op) (eid today now : ℕ) :
    trailingCompletes (ops ++ [.complete eid today now]) =
      trailingCompletes ops + 1 := by
  simp [trailingCompletes, List.takeWhile]

lemma trailingCompletes_append_miss (ops : List Op) (eid today now : ℕ) :
    trailingCompletes (ops ++ [.miss eid today now]) = 0 := by
  simp [trailingCompletes, List.takeWhile]

/-- `len(entries) == total_entries` is preserved by every single call. -/
lemma entries_length_step (h : Habit) (op : Op)
    (ih : (h.entries.length : ℤ) = h.progress.total_entries) :
    ((applyOp h op).entries.length : ℤ) = (applyOp h op).progress.total_entries := by
  cases op <;>
    simp [applyOp, Habit.complete, Habit.miss,
      Progress.add_completed_entry, Progress.add_missed_entry, ih]

/-- The chain `0 ≤ streak ≤ completed ≤ total` is preserved by every call. -/
lemma chain_step (h : Habit) (op : Op)
    (ih : 0 ≤ h.streak.count ∧
      h.streak.count ≤ h.progress.completed_entries ∧
      h.progress.completed_entries ≤ h.progress.total_entries) :
    0 ≤ (applyOp h op).streak.count ∧
      (applyOp h op).streak.count ≤ (applyOp h op).progress.completed_entries ∧
      (applyOp h op).progress.completed_entries ≤
        (applyOp h op).progress.total_entries := by
  obtain ⟨h0, h1, h2⟩ := ih
  cases op <;>
    simp [applyOp, Habit.complete, Habit.miss, Streak.increment, Streak.reset,
      Progress.add_completed_entry, Progress.add_missed_entry] <;>
    omega

/-- The exact-rational percentage as an integer division. -/
lemma exactPercentage_eq_intDiv (c : ℤ) (t : ℕ) (ht : (t : ℤ) ≠ 0) :
    exactPercentage ⟨c, (t : ℤ)⟩ = (100 * c) / (t : ℤ) := by
  simp only [exactPercentage, if_neg ht]
  rw [div_mul_eq_mul_div, mul_comm]
  exact_mod_cast Rat.floor_intCast_div_natCast (100 * c) t

lemma pyPct_zero_num (d : ℕ) : pyPct 0 d = 0 := rfl

set_option maxRecDepth 8000 in
set_option maxHeartbeats 4000000 in
/-- On every total count up to 49 and every completed count at most the
total, the binary64 pipeline agrees with exact integer division. -/
lemma pyPct_eq_floor_small : ∀ t : ℕ, t < 49 → ∀ c : ℕ, c ≤ t + 1 →
    pyPct c (t + 1) = 100 * c / (t + 1) := by decide

lemma percentage_eq_exact_small (c t : ℕ) (hct : c ≤ t) (ht : t ≤ 49) :
    Progress.percentage ⟨(c : ℤ), (t : ℤ)⟩ = exactPercentage ⟨(c : ℤ), (t : ℤ)⟩ := by
  rcases Nat.eq_zero_or_pos t with h0 | hpos
  · subst h0
    simp [Progress.percentage, exactPercentage]
  · have htz : ((t : ℤ)) ≠ 0 := by exact_mod_cast hpos.ne.symm
    rw [exactPercentage_eq_intDiv c t htz]
    rcases Nat.eq_zero_or_pos c with hc0 | hcpos
    · subst hc0
      simp [Progress.percentage, htz, pyPct_zero_num]
    · have hsc : ((c : ℤ)).sign = 1 := Int.sign_eq_one_of_pos (by exact_mod_cast hcpos)
      have hst : ((t : ℤ)).sign = 1 := Int.sign_eq_one_of_pos (by exact_mod_cast hpos)
      obtain ⟨u, rfl⟩ : ∃ u, t = u + 1 := ⟨t - 1, by omega⟩
      have hball := pyPct_eq_floor_small u (by omega) c (by omega)
      simp only [Progress.percentage, if_neg htz, hsc, hst, Int.natAbs_ofNat, one_mul]
      rw [hball]
      push_cast [Int.ofNat_tdiv]
      rfl

lemma find?_upsert {α : Type} (l : List (ℕ × α)) (k : ℕ) (v : α) :
    ((upsert l k v).find? fun p => p.1 == k) = some (k, v) := by
  unfold upsert
  by_cases hany : (l.any fun p => p.1 == k) = true
  · rw [if_pos hany]
    induction l with
    | nil => simp at hany
    | cons hd tl ih =>
        rw [List.map_cons]
        by_cases hhd : (hd.1 == k) = true
        · rw [if_pos hhd]
          simp [List.find?]
        · have hfalse : (hd.1 == k) = false := by simpa using hhd
          rw [if_neg hhd]
          simp only [List.find?, hfalse]
          apply ih
          simp only [List.any_cons, hhd, Bool.false_or] at hany
          exact hany
  · rw [if_neg hany]
    have hnone : (l.find? fun p => p.1 == k) = none := by
      rw [List.find?_eq_none]
      intro x hx
      simp only [List.any_eq_true, not_exists, not_and] at hany
      simp [hany x hx]
    rw [List.find?_append, hnone]
    simp [List.find?]

lemma get_by_id_save (repo : HabitRepository) (h : Habit) :
    (repo.save h).get_by_id h.habit_id = some h := by
  simp [HabitRepository.save, HabitRepository.get_by_id, find?_upsert]

/-! ## Claim theorems -/

/-- C2: for every habit produced by the factory and every finite sequence of
`complete()` / `miss()` calls, after the whole sequence (hence, since every
prefix is itself such a sequence, after each call) the number of entries
equals `progress.total_entries`. -/
theorem entries_length_eq_total_entries
    (hid uid : ℕ) (title description : String) (now : ℕ) (ops : List Op) :
    (((applyOps (Habit.create hid uid title description now) ops).entries.length : ℤ)) =
      (applyOps (Habit.create hid uid title description now) ops).progress.total_entries := by
  induction ops using List.reverseRecOn with
  | nil => simp [applyOps, Habit.create]
  | append_singleton ops op ih =>
      rw [applyOps_append_singleton]
      exact entries_length_step _ op ih

/-- C3: for every habit produced by the factory and every finite sequence of
`complete()` / `miss()` calls, `streak.count` after the sequence equals the
number of trailing `complete()` calls since the most recent `miss()` (the
total number of `complete()` calls when no `miss()` occurred). -/
theorem streak_count_eq_trailingCompletes
    (hid uid : ℕ) (title description : String) (now : ℕ) (ops : List Op) :
    (applyOps (Habit.create hid uid title description now) ops).streak.count =
      (trailingCompletes ops : ℤ) := by
  induction ops using List.reverseRecOn with
  | nil => simp [applyOps, Habit.create, trailingCompletes]
  | append_singleton ops op ih =>
      rw [applyOps_append_singleton]
      cases op with
      | complete eid today now2 =>
          rw [trailingCompletes_append_complete]
          simp [applyOp, Habit.complete, Streak.increment, ih]
      | miss eid today now2 =>
          rw [trailingCompletes_append_miss]
          simp [applyOp, Habit.miss, Streak.reset]

/-- C10: for every habit produced by the factory and every finite sequence of
`complete()` / `miss()` calls, after the sequence (hence after each call)
`0 ≤ streak.count ≤ progress.completed_entries ≤ progress.total_entries`. -/
theorem streak_le_completed_le_total
    (hid uid : ℕ) (title description : String) (now : ℕ) (ops : List Op) :
    0 ≤ (applyOps (Habit.create hid uid title description now) ops).streak.count ∧
      (applyOps (Habit.create hid uid title description now) ops).streak.count ≤
        (applyOps (Habit.create hid uid title description now) ops).progress.completed_entries ∧
      (applyOps (Habit.create hid uid title description now) ops).progress.completed_entries ≤
        (applyOps (Habit.create hid uid title description now) ops).progress.total_entries := by
  induction ops using List.reverseRecOn with
  | nil => simp [applyOps, Habit.create]
  | append_singleton ops op ih =>
      rw [applyOps_append_singleton]
      exact chain_step _ op ih

/-- C4: `complete()` appends exactly one entry with `completed = true`,
increments `completed_entries`, `total_entries` and `streak.count` by 1,
sets `updated_at` to the current time, and is a total function (it cannot
fail on any habit). -/
theorem complete_spec (h : Habit) (eid today now : ℕ) :
    (h.complete eid today now).entries =
      h.entries ++ [{ entry_id := eid, date := today, completed := true }] ∧
    (h.complete eid today now).progress.completed_entries =
      h.progress.completed_entries + 1 ∧
    (h.complete eid today now).progress.total_entries =
      h.progress.total_entries + 1 ∧
    (h.complete eid today now).streak.count = h.streak.count + 1 ∧
    (h.complete eid today now).updated_at = now := by
  refine ⟨rfl, ?_, ?_, rfl, rfl⟩ <;>
    simp [Habit.complete, Progress.add_completed_entry]

/-- C5: `miss()` appends exactly one entry with `completed = false`,
increments `total_entries` by 1 while leaving `completed_entries`
unchanged, resets `streak.count` to 0, sets `updated_at` to the current
time, and is a total function (it cannot fail on any habit). -/
theorem miss_spec (h : Habit) (eid today now : ℕ) :
    (h.miss eid today now).entries =
      h.entries ++ [{ entry_id := eid, date := today, completed := false }] ∧
    (h.miss eid today now).progress.completed_entries =
      h.progress.completed_entries ∧
    (h.miss eid today now).progress.total_entries =
      h.progress.total_entries + 1 ∧
    (h.miss eid today now).streak.count = 0 ∧
    (h.miss eid today now).updated_at = now := by
  refine ⟨rfl, ?_, ?_, rfl, rfl⟩ <;>
    simp [Habit.miss, Progress.add_missed_entry]


/-- C1 (amended): for every Progress state with non-negative counters,
`percentage` equals `floor(completed_entries / total_entries * 100)` in
exact rational arithmetic whenever `completed_entries ≤ total_entries ≤ 49`
(in particular `completed=1, total=3` yields 33), and equals 0 when
`total_entries = 0`; beyond that range the binary64 evaluation of
`int((completed / total) * 100)` can fall below the exact floor. -/
theorem percentage_spec_amended (c czero t : ℕ) (hct : c ≤ t) (ht : t ≤ 49) :
    Progress.percentage ⟨(c : ℤ), (t : ℤ)⟩ = exactPercentage ⟨(c : ℤ), (t : ℤ)⟩ ∧
    Progress.percentage ⟨(czero : ℤ), 0⟩ = 0 ∧
    Progress.percentage ⟨1, 3⟩ = 33 := by
  refine ⟨percentage_eq_exact_small c t hct ht, ?_, by decide⟩
  simp [Progress.percentage]

/-- C1 witness: at `completed=1, total=3` the float and exact percentages
agree and give 33, and `total=0` gives 0. -/
theorem percentage_spec_amended_witness :
    Progress.percentage ⟨((1 : ℕ) : ℤ), ((3 : ℕ) : ℤ)⟩ =
      exactPercentage ⟨((1 : ℕ) : ℤ), ((3 : ℕ) : ℤ)⟩ ∧
    Progress.percentage ⟨((7 : ℕ) : ℤ), 0⟩ = 0 ∧
    Progress.percentage ⟨1, 3⟩ = 33 :=
  percentage_spec_amended 1 7 3 (by decide) (by decide)

/-- C1 counterexample: at `completed_entries = 23, total_entries = 5`
(non-negative counters, positive total) the code computes
`int((23 / 5) * 100) = 459` in binary64 — `23 / 5` rounds to a double just
below `4.6` — while the exact rational floor is `460`, so the claim as
stated is false. -/
theorem percentage_float_counterexample :
    (0 : ℤ) ≤ 23 ∧ (0 : ℤ) < 5 ∧
    Progress.percentage ⟨23, 5⟩ = 459 ∧
    exactPercentage ⟨23, 5⟩ = 460 ∧
    Progress.percentage ⟨23, 5⟩ ≠ exactPercentage ⟨23, 5⟩ := by
  have h : exactPercentage ⟨23, ((5 : ℕ) : ℤ)⟩ = (100 * 23) / ((5 : ℕ) : ℤ) :=
    exactPercentage_eq_intDiv 23 5 (by norm_num)
  norm_num at h
  refine ⟨by norm_num, by norm_num, by decide, h, ?_⟩
  rw [h]
  decide

/-- C6: for any two distinct users A and B and any habit owned by A that
backs the given id, B invoking any of the habit-scoped operations
(`get_habit`, `complete_habit`, `miss_habit`, `get_habit_progress`) on that
habit yields Forbidden, regardless of the operation. -/
theorem owner_only_access (repo : HabitRepository) (a b : User) (habit : Habit)
    (hid eid today now : ℕ)
    (hab : repo.get_by_id hid = some habit)
    (hown : habit.user_id = a.user_id)
    (hne : a.user_id ≠ b.user_id) :
    get_habit repo hid b = .error .forbidden ∧
    (complete_habit repo hid b eid today now).2 = .error .forbidden ∧
    (miss_habit repo hid b eid today now).2 = .error .forbidden ∧
    get_habit_progress repo hid b = .error .forbidden := by
  have hneq : habit.user_id ≠ b.user_id := by
    rw [hown]
    exact hne
  refine ⟨?_, ?_, ?_, ?_⟩ <;>
    simp [get_habit, complete_habit, miss_habit, get_habit_progress, hab, hneq]


/-- C6 witness: a habit of user 1; user 2 gets Forbidden from all four
habit-scoped operations. -/
theorem owner_only_access_witness :
    get_habit ⟨[(10, Habit.create 10 1 "t" "d" 0)]⟩ 10 ⟨2, "b", "hb", 0⟩ =
      .error .forbidden ∧
    (complete_habit ⟨[(10, Habit.create 10 1 "t" "d" 0)]⟩ 10 ⟨2, "b", "hb", 0⟩
      99 5 6).2 = .error .forbidden ∧
    (miss_habit ⟨[(10, Habit.create 10 1 "t" "d" 0)]⟩ 10 ⟨2, "b", "hb", 0⟩
      99 5 6).2 = .error .forbidden ∧
    get_habit_progress ⟨[(10, Habit.create 10 1 "t" "d" 0)]⟩ 10 ⟨2, "b", "hb", 0⟩ =
      .error .forbidden :=
  owner_only_access ⟨[(10, Habit.create 10 1 "t" "d" 0)]⟩ ⟨1, "a", "ha", 0⟩
    ⟨2, "b", "hb", 0⟩ (Habit.create 10 1 "t" "d" 0) 10 99 5 6 rfl rfl (by decide)

/-- C7: when `complete_habit` or `miss_habit` fails (NotFound or
Forbidden), the habit store — hence the target habit's progress, streak,
entries and `updated_at` — is exactly what it was before the call: failure
produces no partial side effects. -/
theorem failed_mutation_unchanged (repo : HabitRepository) (hid : ℕ) (u : User)
    (eid today now : ℕ) (e : ApiError) :
    ((complete_habit repo hid u eid today now).2 = .error e →
      (complete_habit repo hid u eid today now).1 = repo) ∧
    ((miss_habit repo hid u eid today now).2 = .error e →
      (miss_habit repo hid u eid today now).1 = repo) := by
  constructor <;>
  · intro hres
    cases hmem : repo.get_by_id hid with
    | none => simp [complete_habit, miss_habit, hmem]
    | some habit =>
        by_cases hne : habit.user_id ≠ u.user_id
        · simp [complete_habit, miss_habit, hmem, hne]
        · exfalso
          push_neg at hne
          simp [complete_habit, miss_habit, hmem, hne] at hres


/-- C7 witness: completing or missing a habit id with no backing record
fails and leaves the empty store untouched. -/
theorem failed_mutation_unchanged_witness :
    (complete_habit ⟨[]⟩ 5 ⟨1, "a", "h", 0⟩ 0 0 0).1 = ⟨[]⟩ ∧
    (miss_habit ⟨[]⟩ 5 ⟨1, "a", "h", 0⟩ 0 0 0).1 = ⟨[]⟩ :=
  ⟨(failed_mutation_unchanged ⟨[]⟩ 5 ⟨1, "a", "h", 0⟩ 0 0 0 .notFound).1 rfl,
    (failed_mutation_unchanged ⟨[]⟩ 5 ⟨1, "a", "h", 0⟩ 0 0 0 .notFound).2 rfl⟩

/-- C8: `authenticate_user` returns the same generic `None` both when the
login-name lookup (exact string match) finds no user and when the user
exists but the secret fails verification (the password argument ranges over
all strings, the empty one included); it returns the user exactly when the
lookup succeeds and the secret verifies. -/
theorem authenticate_user_spec (checkpw : String → String → Bool)
    (repo : UserRepository) (username password : String) :
    (repo.get_by_username username = none →
      authenticate_user checkpw repo username password = none) ∧
    (∀ u : User, repo.get_by_username username = some u →
      u.verify_password checkpw password = false →
      authenticate_user checkpw repo username password = none) ∧
    (∀ u : User, authenticate_user checkpw repo username password = some u ↔
      (repo.get_by_username username = some u ∧
        u.verify_password checkpw password = true)) := by
  refine ⟨?_, ?_, ?_⟩
  · intro h
    simp [authenticate_user, h]
  · intro u hu hv
    simp [authenticate_user, hu, hv]
  · intro u
    cases hmem : repo.get_by_username username with
    | none => simp [authenticate_user, hmem]
    | some w =>
        by_cases hv : w.verify_password checkpw password = true
        · have hres : authenticate_user checkpw repo username password = some w := by
            simp [authenticate_user, hmem, hv]
          rw [hres]
          constructor
          · intro h
            cases Option.some.inj h
            exact ⟨rfl, hv⟩
          · rintro ⟨h1, h2⟩
            cases Option.some.inj h1
            rfl
        · have hres : authenticate_user checkpw repo username password = none := by
            simp [authenticate_user, hmem, hv]
          rw [hres]
          constructor
          · intro h
            cases h
          · rintro ⟨h1, h2⟩
            cases Option.some.inj h1
            exact absurd h2 hv


/-- C8 witness: unknown user and wrong (empty) secret both yield `none`;
the correct pair yields the user. -/
theorem authenticate_user_spec_witness :
    authenticate_user (fun p _ => p == "pw")
      ⟨[(1, ⟨1, "alice", "digest", 0⟩)], [("alice", 1)]⟩ "bob" "pw" = none ∧
    authenticate_user (fun p _ => p == "pw")
      ⟨[(1, ⟨1, "alice", "digest", 0⟩)], [("alice", 1)]⟩ "alice" "" = none ∧
    authenticate_user (fun p _ => p == "pw")
      ⟨[(1, ⟨1, "alice", "digest", 0⟩)], [("alice", 1)]⟩ "alice" "pw" =
        some ⟨1, "alice", "digest", 0⟩ :=
  ⟨(authenticate_user_spec (fun p _ => p == "pw")
      ⟨[(1, ⟨1, "alice", "digest", 0⟩)], [("alice", 1)]⟩ "bob" "pw").1 rfl,
    (authenticate_user_spec (fun p _ => p == "pw")
      ⟨[(1, ⟨1, "alice", "digest", 0⟩)], [("alice", 1)]⟩ "alice" "").2.1
      ⟨1, "alice", "digest", 0⟩ rfl rfl,
    ((authenticate_user_spec (fun p _ => p == "pw")
      ⟨[(1, ⟨1, "alice", "digest", 0⟩)], [("alice", 1)]⟩ "alice" "pw").2.2
      ⟨1, "alice", "digest", 0⟩).mpr ⟨rfl, rfl⟩⟩

/-- C9: `create_habit` builds a habit owned by the caller (the
authenticated user's id), with zero progress counters, zero streak and an
empty entry sequence; the habit is stored in the habit store (retrievable
by its id) and the returned view is that habit's. -/
theorem create_habit_spec (repo : HabitRepository) (u : User)
    (title description : String) (hid now : ℕ) :
    ∃ habit : Habit,
      (create_habit repo u title description hid now).1.get_by_id hid = some habit ∧
      (create_habit repo u title description hid now).2 = habit_to_response habit ∧
      habit.user_id = u.user_id ∧
      habit.progress.completed_entries = 0 ∧
      habit.progress.total_entries = 0 ∧
      habit.streak.count = 0 ∧
      habit.entries = [] := by
  refine ⟨Habit.create hid u.user_id title description now,
    ?_, rfl, rfl, rfl, rfl, rfl, rfl⟩
  exact get_by_id_save repo _

end HabitApp
